import Mathlib

/-!
Verification development for the FFmpeg `framerate` video filter
(`libavfilter/vf_framerate.c`): a temporal frame-rate converter that
resamples a progressive video stream to a fixed output rate, cloning or
blending the two buffered source frames and gating blends by a
scene-change detector.

The C code is shallowly embedded below:

* timestamps are mathematical integers (`Int`); `AV_NOPTS_VALUE` is the
  C sentinel value;
* `double` scene-score arithmetic is embedded in `ℚ` (the formulas in the
  code are rational);
* pixel planes are total functions `Nat → Nat → Int` (row → column →
  sample); pointer arithmetic `p + y*linesize + x` becomes indexing;
* the filter state `FrameRateContext` becomes the structure `FRState`
  (mutation = explicit state passing), configuration fields live in `Cfg`;
* emission of frames via `ff_filter_frame` becomes an output list;
* buffer allocation (`ff_get_video_buffer`, `av_frame_clone`) is out of
  scope: an emitted frame is described by its provenance (`WorkSrc`) and
  its timestamp.
-/

namespace Framerate

/-- C `AV_NOPTS_VALUE` (`INT64_MIN`). -/
def AV_NOPTS_VALUE : Int := -(2^63)

/-- `AVRational`: numerator / denominator. -/
structure AVRational where
  num : Int
  den : Int
deriving Repr, DecidableEq

/-- Modelled from the spec: libavutil's `av_rescale(a, b, c)` (libavutil is not
under `src/`); per the spec, rescaling computes `round(a * b / c)`: we take the
nearest integer, `⌊a*b/c + 1/2⌋ = (2*a*b + c) / (2*c)` with floor division. -/
def av_rescale (a b c : Int) : Int := (2*a*b + c) / (2*c)

/-- Modelled from the spec: `av_rescale_q(a, bq, cq)` converts `a` from
timebase `bq` to timebase `cq`, i.e. `av_rescale(a, bq.num*cq.den, bq.den*cq.num)`. -/
def av_rescale_q (a : Int) (bq cq : AVRational) : Int :=
  av_rescale a (bq.num * cq.den) (bq.den * cq.num)

/-- Modelled from the spec: `av_inv_q` inverts a rational. -/
def av_inv_q (q : AVRational) : AVRational := ⟨q.den, q.num⟩

/-- `av_clipf(a, amin, amax)`. -/
def av_clipf (a amin amax : ℚ) : ℚ :=
  if a < amin then amin else if a > amax then amax else a

/-- A video frame as the filter sees it: presentation timestamp
(`none` = `AV_NOPTS_VALUE`), dimensions, and the luma plane
(`data[0]`) as a (row, column) → sample function. -/
structure Frame where
  pts : Option Int
  width : Nat
  height : Nat
  luma : Nat → Nat → Int

/-- `sad_8x8_16`: sum of absolute differences over one 8×8 block whose
top-left corner is at row `y0`, column `x0` of each plane. -/
def sad_8x8_16 (p1 p2 : Nat → Nat → Int) (y0 x0 : Nat) : Int :=
  ∑ y in Finset.range 8, ∑ x in Finset.range 8,
    |p1 (y0 + y) (x0 + x) - p2 (y0 + y) (x0 + x)|

/-- `scene_sad16` / `scene_sad8`: accumulate `sad_8x8_16` over the grid of
whole 8×8 blocks.  The C loops run `y = 0, 8, 16, …` while `y < height-7`
(and similarly for `x`), i.e. block row indices `k < height / 8` and block
column indices `k < width / 8`; trailing rows/columns narrower than 8 are
ignored.  (The 8-bit path calls the libavutil 8×8 SAD routine, which is
not under `src/`; modelled from the spec as the same 8×8 block SAD.) -/
def scene_sad (p1 p2 : Nat → Nat → Int) (width height : Nat) : Int :=
  ∑ yb in Finset.range (height / 8), ∑ xb in Finset.range (width / 8),
    sad_8x8_16 p1 p2 (8 * yb) (8 * xb)

/-- The mutable part of `FrameRateContext`. -/
structure FRState where
  f0 : Option Frame
  f1 : Option Frame
  pts0 : Int
  pts1 : Int
  delta : Int
  score : ℚ
  prev_mafd : ℚ
  flush : Bool
  start_pts : Int
  n : Int

/-- The configuration part of `FrameRateContext` (options and values fixed
at `config_input` / `config_output` time). `scd` is `flags & FRAMERATE_FLAG_SCD`;
`max = 1 << bitdepth`. -/
structure Cfg where
  dest_frame_rate : AVRational
  dest_time_base : AVRational
  srce_time_base : AVRational
  interp_start : Int
  interp_end : Int
  scene_score : ℚ
  scd : Bool
  bitdepth : Nat
  max : Int

/-- `(crnt->height & ~7) * (crnt->width & ~7)`: number of luma samples
covered by whole 8×8 blocks (`h & ~7 = 8*(h/8)` for non-negative `h`). -/
def usable_pixels (crnt : Frame) : Nat :=
  (8 * (crnt.height / 8)) * (8 * (crnt.width / 8))

/-- The MAFD computed by `get_scene_score`:
`(double)sad * 100.0 / FFMAX(1, (h & ~7) * (w & ~7)) / (1 << bitdepth)`. -/
def mafdOf (bitdepth : Nat) (crnt next : Frame) : ℚ :=
  (scene_sad crnt.luma next.luma crnt.width crnt.height : ℚ) * 100
    / (max 1 (usable_pixels crnt) : ℚ) / ((2:ℚ)^bitdepth)

/-- `get_scene_score(ctx, crnt, next)`: returns the score and the updated
state.  When the two frames have equal height and width it computes the
MAFD, reports `av_clipf(min(mafd, |mafd - prev_mafd|), 0, 100)` and stores
`mafd` into `prev_mafd`; otherwise it returns 0 and leaves the state alone. -/
def get_scene_score (cfg : Cfg) (s : FRState) (crnt next : Frame) : ℚ × FRState :=
  if crnt.height = next.height ∧ crnt.width = next.width then
    let mafd := mafdOf cfg.bitdepth crnt next
    let diff := |mafd - s.prev_mafd|
    (av_clipf (min mafd diff) 0 100, { s with prev_mafd := mafd })
  else
    (0, s)

/-- Provenance of an output frame: a clone of `f0`, a clone of `f1`, or a
blend with the given `src1_factor` (weight of `f0`) and `src2_factor`
(weight of `f1`). -/
inductive WorkSrc where
  | clone0 : WorkSrc
  | clone1 : WorkSrc
  | blended : Int → Int → WorkSrc
deriving Repr, DecidableEq

/-- An emitted output frame: provenance plus the timestamp written into
`s->work->pts`. -/
structure OutFrame where
  src : WorkSrc
  pts : Int
deriving Repr, DecidableEq

/-- The candidate output timestamp of `process_work_frame`:
`s->start_pts + av_rescale_q(s->n, av_inv_q(s->dest_frame_rate), s->dest_time_base)`. -/
def workPts (cfg : Cfg) (s : FRState) : Int :=
  s.start_pts + av_rescale_q s.n (av_inv_q cfg.dest_frame_rate) cfg.dest_time_base

/-- `blend_frames(ctx, interpolate)` minus the pixel work: consults the
scene-score cache (valid when `score >= 0`), calling `get_scene_score` on
`(f0, f1)` when invalid and scene-change detection is enabled; returns the
updated state and whether the blend was performed (C return value 1) or
suppressed by the scene gate (C return value 0).  Work-buffer allocation is
outside the model. -/
def blend_frames (cfg : Cfg) (s : FRState) (f0 f1 : Frame) : FRState × Bool :=
  let scored : ℚ × FRState :=
    if cfg.scd then
      if s.score ≥ 0 then (s.score, s)
      else
        let r := get_scene_score cfg s f0 f1
        (r.1, { r.2 with score := r.1 })
    else (0, s)
  if scored.1 < cfg.scene_score then (scored.2, true) else (scored.2, false)

/-- `process_work_frame(ctx)`: decide whether an output frame is due at the
candidate timestamp and what it is made from.  Returns the updated state
and the emitted frame, if any (C return values 1 and 0; `ENOMEM` is outside
the model).  `cfg.max / 2` is the C `s->max >> 1`. -/
def process_work_frame (cfg : Cfg) (s : FRState) : FRState × Option OutFrame :=
  match s.f1 with
  | none => (s, none)
  | some f1 =>
    match s.f0 with
    | none =>
      if s.flush = false then (s, none)
      else
        let work_pts := workPts cfg s
        if work_pts ≥ s.pts1 ∧ s.flush = false then (s, none)
        else ({ s with n := s.n + 1 }, some ⟨WorkSrc.clone1, work_pts⟩)
    | some f0 =>
      let work_pts := workPts cfg s
      if work_pts ≥ s.pts1 ∧ s.flush = false then (s, none)
      else if work_pts ≥ s.pts1 + s.delta ∧ s.flush = true then (s, none)
      else
        let interpolate := av_rescale (work_pts - s.pts0) cfg.max s.delta
        if interpolate > cfg.interp_end then
          ({ s with n := s.n + 1 }, some ⟨WorkSrc.clone1, work_pts⟩)
        else if interpolate < cfg.interp_start then
          ({ s with n := s.n + 1 }, some ⟨WorkSrc.clone0, work_pts⟩)
        else
          let r := blend_frames cfg s f0 f1
          if r.2 then
            ({ r.1 with n := r.1.n + 1 },
             some ⟨WorkSrc.blended (cfg.max - interpolate) interpolate, work_pts⟩)
          else
            ({ r.1 with n := r.1.n + 1 },
             some ⟨(if interpolate > cfg.max / 2 then WorkSrc.clone1 else WorkSrc.clone0),
                   work_pts⟩)

/-- The `do { process_work_frame; ff_filter_frame } while` loop at the end of
`filter_frame`, with explicit fuel (the C loop terminates because candidate
timestamps grow past `pts1`): emit frames while `process_work_frame`
produces them. -/
def emitLoop (cfg : Cfg) : Nat → FRState → FRState × List OutFrame
  | 0, s => (s, [])
  | fuel + 1, s =>
    match process_work_frame cfg s with
    | (s1, none) => (s1, [])
    | (s1, some o) =>
      let r := emitLoop cfg fuel s1
      (r.1, o :: r.2)

/-- `filter_frame(inlink, inpicref)`: reject frames without a timestamp and
frames whose rescaled timestamp duplicates `pts1`; otherwise shift the
window, reset on discontinuity (`delta < 0`), establish `start_pts`, and
run the emission loop.  Returns the new state and the list of emitted
frames. -/
def filter_frame (cfg : Cfg) (fuel : Nat) (s : FRState) (inp : Frame) :
    FRState × List OutFrame :=
  match inp.pts with
  | none => (s, [])
  | some ipts =>
    let pts := av_rescale_q ipts cfg.srce_time_base cfg.dest_time_base
    if s.f1.isSome ∧ pts = s.pts1 then (s, [])
    else
      let s1 : FRState :=
        { s with f0 := s.f1, pts0 := s.pts1, f1 := some inp, pts1 := pts,
                 delta := pts - s.pts1, score := -1 }
      let s2 := if s1.delta < 0 then { s1 with start_pts := s1.pts1, n := 0, f0 := none } else s1
      let s3 := if s2.start_pts = AV_NOPTS_VALUE then { s2 with start_pts := s2.pts1 } else s2
      emitLoop cfg fuel s3

/-- Run `filter_frame` over a list of input frames, concatenating outputs. -/
def runFilter (cfg : Cfg) (fuel : Nat) : FRState → List Frame → FRState × List OutFrame
  | s, [] => (s, [])
  | s, inp :: rest =>
    let r := filter_frame cfg fuel s inp
    let r2 := runFilter cfg fuel r.1 rest
    (r2.1, r.2 ++ r2.2)

/-- The rescaled timestamp of an input frame if `filter_frame` accepts it,
`none` if the frame is dropped (missing or duplicate timestamp). -/
def acceptPts (cfg : Cfg) (s : FRState) (inp : Frame) : Option Int :=
  match inp.pts with
  | none => none
  | some ipts =>
    let pts := av_rescale_q ipts cfg.srce_time_base cfg.dest_time_base
    if s.f1.isSome ∧ pts = s.pts1 then none else some pts

/-- `true` iff running the given inputs never triggers the `delta < 0`
discontinuity reset: every accepted frame's rescaled timestamp is at least
the current `pts1`. -/
def noResetRun (cfg : Cfg) (fuel : Nat) : FRState → List Frame → Bool
  | _, [] => true
  | s, inp :: rest =>
    (match acceptPts cfg s inp with
     | none => true
     | some p => decide (s.pts1 ≤ p)) &&
    noResetRun cfg fuel (filter_frame cfg fuel s inp).1 rest

/-- `request_frame(outlink)` in the case where the upstream request returned
`AVERROR_EOF`: if a current frame exists and the filter is not yet flushing,
set `flush` and run `process_work_frame` exactly once, forwarding its frame
if it produced one and signaling EOF downstream otherwise (third component
`true` = `AVERROR_EOF` returned).  In all other cases the upstream EOF is
propagated unchanged. -/
def request_frame_eof (cfg : Cfg) (s : FRState) : FRState × Option OutFrame × Bool :=
  if s.f1.isSome ∧ s.flush = false then
    let s1 : FRState := { s with flush := true }
    match process_work_frame cfg s1 with
    | (s2, some o) => (s2, some o, false)
    | (s2, none) => (s2, none, true)
  else (s, none, true)

/-- C arithmetic right shift on `int` values (floor division by `2^k`;
all shifted values in the blend kernels are non-negative). -/
def asr (a : Int) (k : Nat) : Int := a / 2^k

/-- Store into a `uint8_t` destination sample: reduction mod 256. -/
def toU8 (a : Int) : Int := a % 256

/-- Store into a `uint16_t` destination sample: reduction mod 65536. -/
def toU16 (a : Int) : Int := a % 65536

/-- `filter_slice8`: the value written to the work frame at a given plane,
line and pixel.  Planes 0 and 3 (luma/alpha) use
`(src1*f1 + src2*f2 + 128) >> 8`; planes 1 and 2 (chroma) use
`((src1-128)*f1 + (src2-128)*f2 + 32896) >> 8`.  The job/slice split
partitions lines across workers; every written pixel gets this value. -/
def filter_slice8 (src1 src2 : Fin 4 → Nat → Nat → Int) (src1_factor src2_factor : Int)
    (plane : Fin 4) (line pixel : Nat) : Int :=
  if plane.val < 1 ∨ 2 < plane.val then
    toU8 (asr (src1 plane line pixel * src1_factor + src2 plane line pixel * src2_factor
               + 128) 8)
  else
    toU8 (asr ((src1 plane line pixel - 128) * src1_factor
               + (src2 plane line pixel - 128) * src2_factor + 32896) 8)

/-- `filter_slice16`: as `filter_slice8` for the >8-bit sample path, with
`half = max/2`, `uv = (max+1)*half` and shift `bitdepth`. -/
def filter_slice16 (smax : Int) (bitdepth : Nat) (src1 src2 : Fin 4 → Nat → Nat → Int)
    (src1_factor src2_factor : Int) (plane : Fin 4) (line pixel : Nat) : Int :=
  let half := smax / 2
  let uv := (smax + 1) * half
  if plane.val < 1 ∨ 2 < plane.val then
    toU16 (asr (src1 plane line pixel * src1_factor + src2 plane line pixel * src2_factor
                + half) bitdepth)
  else
    toU16 (asr ((src1 plane line pixel - half) * src1_factor
                + (src2 plane line pixel - half) * src2_factor + uv) bitdepth)

/-! ### Helper lemmas -/

/-- `process_work_frame` does nothing when only one frame has been seen and
the filter is not flushing. -/
lemma process_f0_none_noflush (cfg : Cfg) (s : FRState)
    (h0 : s.f0 = none) (hfl : s.flush = false) :
    process_work_frame cfg s = (s, none) := by
  unfold process_work_frame
  cases hf1 : s.f1 <;> simp [h0, hfl]

/-- If `process_work_frame` is a no-op, the emission loop emits nothing. -/
lemma emitLoop_none (cfg : Cfg) (fuel : Nat) (s : FRState)
    (h : process_work_frame cfg s = (s, none)) :
    emitLoop cfg fuel s = (s, []) := by
  cases fuel <;> simp [emitLoop, h]

/-! ### Concrete test fixtures -/

/-- An 8×8 frame with all-zero luma. -/
def frameZ (p : Option Int) : Frame := ⟨p, 8, 8, fun _ _ => 0⟩

/-- A test configuration: 8-bit input, 1/1 timebases, unit frame rate,
default `interp_start`/`interp_end`, scene threshold 8, detection on. -/
def cfgT : Cfg :=
  { dest_frame_rate := ⟨1, 1⟩, dest_time_base := ⟨1, 1⟩, srce_time_base := ⟨1, 1⟩,
    interp_start := 15, interp_end := 240, scene_score := 8, scd := true,
    bitdepth := 8, max := 256 }

/-- A test state holding only a current frame (`f0` unset). -/
def sT10 : FRState :=
  { f0 := none, f1 := some (frameZ (some 0)), pts0 := 0, pts1 := 0, delta := 0,
    score := 0, prev_mafd := 0, flush := false, start_pts := 0, n := 0 }

/-- A test state with a full window `(pts0, pts1) = (0, 10)`. -/
def sT6 : FRState :=
  { f0 := some (frameZ (some 0)), f1 := some (frameZ (some 10)), pts0 := 0, pts1 := 10,
    delta := 10, score := -1, prev_mafd := 0, flush := false, start_pts := 0, n := 3 }

/-! ### Claims -/

/-- C10: with `f0` unset and the filter not flushing, `process_work_frame`
emits nothing and leaves the state unchanged; any emission with `f0` unset
can only happen during flush and is a clone of `f1`, so the first output
appears only once a second input arrives or end-of-stream flushing begins. -/
theorem c10_primed_no_output (cfg : Cfg) (s : FRState) (h0 : s.f0 = none) :
    (s.flush = false → process_work_frame cfg s = (s, none)) ∧
    (∀ s' o, process_work_frame cfg s = (s', some o) →
      s.flush = true ∧ o.src = WorkSrc.clone1) := by
  constructor
  · intro hfl
    exact process_f0_none_noflush cfg s h0 hfl
  · intro s' o h
    unfold process_work_frame at h
    cases hf1 : s.f1 with
    | none => rw [hf1] at h; simp at h
    | some f1v =>
      rw [hf1, h0] at h
      by_cases hfl : s.flush = false
      · simp [hfl] at h
      · rw [if_neg hfl] at h
        rw [Bool.not_eq_false] at hfl
        refine ⟨hfl, ?_⟩
        rw [hfl] at h
        simp at h
        exact (congrArg OutFrame.src h.2.symm)

/-- Witness for C10 at a concrete state. -/
theorem c10_primed_no_output_witness :
    process_work_frame cfgT sT10 = (sT10, none) :=
  (c10_primed_no_output cfgT sT10 rfl).1 rfl

/-- C8: an input frame without a timestamp, and an input frame whose
rescaled timestamp equals the current `pts1` (when a current frame exists),
are dropped: the state is returned unchanged and no output is emitted. -/
theorem c8_dropped_frames (cfg : Cfg) (fuel : Nat) (s : FRState) (inp : Frame) :
    (inp.pts = none → filter_frame cfg fuel s inp = (s, [])) ∧
    (∀ ipts, inp.pts = some ipts → s.f1.isSome →
      av_rescale_q ipts cfg.srce_time_base cfg.dest_time_base = s.pts1 →
      filter_frame cfg fuel s inp = (s, [])) := by
  constructor
  · intro h
    unfold filter_frame
    rw [h]
  · intro ipts hpts hsome heq
    unfold filter_frame
    rw [hpts]
    simp only [if_pos (And.intro hsome heq)]

/-- Witness for C8: a frame without pts and a duplicate-pts frame at a
concrete state. -/
theorem c8_dropped_frames_witness :
    filter_frame cfgT 3 sT10 (frameZ none) = (sT10, []) ∧
    filter_frame cfgT 3 sT10 (frameZ (some 0)) = (sT10, []) :=
  ⟨(c8_dropped_frames cfgT 3 sT10 (frameZ none)).1 rfl,
   (c8_dropped_frames cfgT 3 sT10 (frameZ (some 0))).2 0 rfl rfl rfl⟩

/-- C6: an accepted input frame whose rescaled timestamp `p` makes the new
`delta = p - pts1` negative triggers the discontinuity reset: `f0` is
cleared, the output counter `n` restarts at 0, `start_pts` becomes `p`, and
the call completes normally emitting nothing. -/
theorem c6_discontinuity_reset (cfg : Cfg) (fuel : Nat) (s : FRState) (inp : Frame)
    (ipts p : Int)
    (hpts : inp.pts = some ipts)
    (hp : p = av_rescale_q ipts cfg.srce_time_base cfg.dest_time_base)
    (hacc : ¬((s.f1.isSome : Prop) ∧ p = s.pts1))
    (hneg : p - s.pts1 < 0)
    (hfl : s.flush = false) :
    (filter_frame cfg fuel s inp).1.f0 = none ∧
    (filter_frame cfg fuel s inp).1.n = 0 ∧
    (filter_frame cfg fuel s inp).1.start_pts = p ∧
    (filter_frame cfg fuel s inp).2 = [] := by
  subst hp
  unfold filter_frame
  rw [hpts]
  simp only [if_neg hacc]
  rw [if_pos hneg]
  set p := av_rescale_q ipts cfg.srce_time_base cfg.dest_time_base with hpdef
  by_cases hnop : p = AV_NOPTS_VALUE
  · rw [if_pos hnop, emitLoop_none]
    · exact ⟨rfl, rfl, rfl, rfl⟩
    · exact process_f0_none_noflush _ _ rfl hfl
  · rw [if_neg hnop, emitLoop_none]
    · exact ⟨rfl, rfl, rfl, rfl⟩
    · exact process_f0_none_noflush _ _ rfl hfl

/-- Witness for C6: a frame at pts 5 arriving after `pts1 = 10`. -/
theorem c6_discontinuity_reset_witness :
    (filter_frame cfgT 3 sT6 (frameZ (some 5))).1.f0 = none ∧
    (filter_frame cfgT 3 sT6 (frameZ (some 5))).1.n = 0 ∧
    (filter_frame cfgT 3 sT6 (frameZ (some 5))).1.start_pts = 5 ∧
    (filter_frame cfgT 3 sT6 (frameZ (some 5))).2 = [] :=
  c6_discontinuity_reset cfgT 3 sT6 (frameZ (some 5)) 5 5 rfl (by decide)
    (by decide) (by decide) rfl

/-- The claim's normalization of the SAD, written exactly as the spec says:
`sad * 100 / usable_pixel_count / 2^bitdepth` (no guard on the pixel count;
`ℚ` division by zero is zero). -/
def mafd_claim (bitdepth : Nat) (crnt next : Frame) : ℚ :=
  (scene_sad crnt.luma next.luma crnt.width crnt.height : ℚ) * 100
    / (usable_pixels crnt : ℚ) / ((2:ℚ)^bitdepth)

/-- When no whole 8×8 block fits, the accumulated SAD is zero. -/
lemma scene_sad_eq_zero_of_usable_eq_zero (crnt next : Frame)
    (h : usable_pixels crnt = 0) :
    scene_sad crnt.luma next.luma crnt.width crnt.height = 0 := by
  unfold usable_pixels at h
  unfold scene_sad
  rcases Nat.mul_eq_zero.mp h with h' | h'
  · have hz : crnt.height / 8 = 0 := by omega
    simp [hz]
  · have hz : crnt.width / 8 = 0 := by omega
    simp [hz]

/-- The spec's unguarded normalization agrees with the code's
`FFMAX(1, ·)`-guarded one. -/
lemma mafd_claim_eq_mafdOf (bd : Nat) (crnt next : Frame) :
    mafd_claim bd crnt next = mafdOf bd crnt next := by
  unfold mafd_claim mafdOf
  rcases Nat.eq_zero_or_pos (usable_pixels crnt) with h | h
  · rw [scene_sad_eq_zero_of_usable_eq_zero crnt next h]
    simp
  · have h1 : (1:ℚ) ≤ (usable_pixels crnt : ℚ) := by exact_mod_cast h
    rw [max_eq_right h1]

/-- `av_clipf a 0 100` always lands in `[0, 100]`. -/
lemma av_clipf_mem (a : ℚ) : 0 ≤ av_clipf a 0 100 ∧ av_clipf a 0 100 ≤ 100 := by
  unfold av_clipf
  split_ifs with h1 h2 <;> constructor <;> linarith

/-- C5: the scene score always lies in `[0, 100]`; for frames of different
width or height it is exactly 0; otherwise it is
`clamp(min(MAFD, |MAFD - previous_MAFD|), 0, 100)` where MAFD is the 8×8
block luma SAD (trailing rows/columns narrower than 8 ignored) normalized
by `100 / usable_pixel_count / 2^bitdepth`. -/
theorem c5_scene_score_contract (cfg : Cfg) (s : FRState) (crnt next : Frame) :
    (0 ≤ (get_scene_score cfg s crnt next).1 ∧ (get_scene_score cfg s crnt next).1 ≤ 100) ∧
    (¬(crnt.height = next.height ∧ crnt.width = next.width) →
      (get_scene_score cfg s crnt next).1 = 0) ∧
    ((crnt.height = next.height ∧ crnt.width = next.width) →
      (get_scene_score cfg s crnt next).1 =
        av_clipf (min (mafd_claim cfg.bitdepth crnt next)
                      |mafd_claim cfg.bitdepth crnt next - s.prev_mafd|) 0 100) := by
  unfold get_scene_score
  by_cases h : crnt.height = next.height ∧ crnt.width = next.width
  · rw [if_pos h]
    refine ⟨av_clipf_mem _, fun hm => absurd h hm, fun _ => ?_⟩
    rw [mafd_claim_eq_mafdOf]
  · rw [if_neg h]
    exact ⟨by norm_num, fun _ => rfl, fun hm => absurd hm h⟩

/-- A 4-wide frame (no whole 8×8 block fits). -/
def frameW4 : Frame := ⟨some 0, 4, 8, fun _ _ => 0⟩

/-- Witness for C5: at two equal-size all-zero frames the score is 0 (and in
range); at mismatched frames it is 0. -/
theorem c5_scene_score_contract_witness :
    (0 ≤ (get_scene_score cfgT sT10 (frameZ (some 0)) (frameZ (some 1))).1 ∧
      (get_scene_score cfgT sT10 (frameZ (some 0)) (frameZ (some 1))).1 ≤ 100) ∧
    (get_scene_score cfgT sT10 (frameZ (some 0)) frameW4).1 = 0 :=
  ⟨(c5_scene_score_contract cfgT sT10 (frameZ (some 0)) (frameZ (some 1))).1,
   (c5_scene_score_contract cfgT sT10 (frameZ (some 0)) frameW4).2.1 (by decide)⟩

/-- A state with a nonzero stored `prev_mafd`. -/
def sC9 : FRState := { sT10 with prev_mafd := 42 }

/-- C9 counterexample: a call on frames of different widths does NOT update
`previous_MAFD` — the stored value stays 42 although the MAFD of the pair
(by the code's own normalization formula) is 0.  This refutes "every call
updates the stored previous_MAFD". -/
theorem c9_cx :
    (get_scene_score cfgT sC9 (frameZ (some 0)) frameW4).2.prev_mafd = 42 ∧
    mafdOf cfgT.bitdepth (frameZ (some 0)) frameW4 = 0 ∧ (42:ℚ) ≠ 0 := by
  refine ⟨rfl, ?_, by norm_num⟩
  have h : usable_pixels (frameZ (some 0)) ≠ 0 := by decide
  rw [← mafd_claim_eq_mafdOf]
  unfold mafd_claim scene_sad
  norm_num [sad_8x8_16, frameZ, frameW4]

/-- C9 (amended): a call to the scene detector on frames with matching
dimensions sets `prev_mafd` to the MAFD computed for that pair and mutates
no other field; a call on mismatched frames leaves the state entirely
unchanged (so no field other than `prev_mafd` is ever mutated). -/
theorem c9_prev_mafd_update (cfg : Cfg) (s : FRState) (crnt next : Frame) :
    ((crnt.height = next.height ∧ crnt.width = next.width) →
      (get_scene_score cfg s crnt next).2 =
        { s with prev_mafd := mafdOf cfg.bitdepth crnt next }) ∧
    (¬(crnt.height = next.height ∧ crnt.width = next.width) →
      (get_scene_score cfg s crnt next).2 = s) := by
  unfold get_scene_score
  by_cases h : crnt.height = next.height ∧ crnt.width = next.width
  · rw [if_pos h]
    exact ⟨fun _ => rfl, fun hm => absurd h hm⟩
  · rw [if_neg h]
    exact ⟨fun hm => absurd hm h, fun _ => rfl⟩

/-- Witness for C9 (amended) at concrete matching frames. -/
theorem c9_prev_mafd_update_witness :
    (get_scene_score cfgT sC9 (frameZ (some 0)) (frameZ (some 1))).2 =
      { sC9 with prev_mafd := mafdOf cfgT.bitdepth (frameZ (some 0)) (frameZ (some 1)) } :=
  (c9_prev_mafd_update cfgT sC9 (frameZ (some 0)) (frameZ (some 1))).1 ⟨rfl, rfl⟩

/-- Shifting out an exact multiple plus a sub-shift remainder. -/
lemma asr_exact (s half : Int) (k : Nat) (h0 : 0 ≤ half) (h1 : half < 2^k) :
    asr (s * 2^k + half) k = s := by
  unfold asr
  have hk : (2:Int)^k ≠ 0 := by positivity
  rw [add_comm, mul_comm]
  rw [Int.add_mul_ediv_left half s hk]
  rw [Int.ediv_eq_zero_of_lt h0 h1, zero_add]

/-- A `uint8_t` store of an in-range value is the identity. -/
lemma toU8_id (s : Int) (h0 : 0 ≤ s) (h1 : s ≤ 255) : toU8 s = s := by
  unfold toU8
  exact Int.emod_eq_of_lt h0 (by omega)

/-- A `uint16_t` store of an in-range value is the identity. -/
lemma toU16_id (s : Int) (h0 : 0 ≤ s) (h1 : s < 65536) : toU16 s = s := by
  unfold toU16
  exact Int.emod_eq_of_lt h0 h1

/-- `half = max/2` is non-negative and below `max = 2^bd`. -/
lemma half_bounds (bd : Nat) (h : 1 ≤ bd) :
    0 ≤ (2:Int)^bd / 2 ∧ (2:Int)^bd / 2 < 2^bd := by
  have h2 : (2:Int)^bd = 2 * 2^(bd-1) := by
    conv_lhs => rw [show bd = 1 + (bd - 1) by omega]
    rw [pow_add, pow_one]
  constructor
  · exact Int.ediv_nonneg (by positivity) (by norm_num)
  · rw [h2, Int.mul_ediv_cancel_left _ (by norm_num : (2:Int) ≠ 0)]
    have hp : (0:Int) < 2^(bd-1) := by positivity
    linarith [h2]

/-- Samples below `2^bd` (bd ≤ 12) fit a `uint16_t`. -/
lemma lt_65536_of_lt_pow (s : Int) (bd : Nat) (hbd : bd ≤ 12) (h : s < 2^bd) :
    s < 65536 := by
  have : (2:Int)^bd ≤ 2^12 := pow_le_pow_right₀ (by norm_num) hbd
  have h12 : (2:Int)^12 = 4096 := by norm_num
  linarith

/-- C3: with weight pair `(w, max-w)`, `w = 0` makes both blend kernels
reproduce the first source exactly on every plane (luma/alpha and the
re-centered chroma path), and `w = max_value` reproduces the second source
exactly, in the 8-bit path (`max = 256`) and the 9–12-bit path
(`max = 2^bitdepth`). -/
theorem c3_blend_boundary (a8 b8 a16 b16 : Fin 4 → Nat → Nat → Int) (bd : Nat)
    (hbd1 : 9 ≤ bd) (hbd2 : bd ≤ 12)
    (h8a : ∀ p l x, 0 ≤ a8 p l x ∧ a8 p l x ≤ 255)
    (h8b : ∀ p l x, 0 ≤ b8 p l x ∧ b8 p l x ≤ 255)
    (h16a : ∀ p l x, 0 ≤ a16 p l x ∧ a16 p l x < 2^bd)
    (h16b : ∀ p l x, 0 ≤ b16 p l x ∧ b16 p l x < 2^bd) :
    (∀ p l x, filter_slice8 a8 b8 (256 - 0) 0 p l x = a8 p l x) ∧
    (∀ p l x, filter_slice8 a8 b8 (256 - 256) 256 p l x = b8 p l x) ∧
    (∀ p l x, filter_slice16 (2^bd) bd a16 b16 (2^bd - 0) 0 p l x = a16 p l x) ∧
    (∀ p l x, filter_slice16 (2^bd) bd a16 b16 (2^bd - 2^bd) (2^bd) p l x = b16 p l x) := by
  have h256 : ((2:Int)^8) = 256 := by norm_num
  have hh := half_bounds bd (by omega)
  refine ⟨?_, ?_, ?_, ?_⟩
  · intro p l x
    obtain ⟨ha0, ha1⟩ := h8a p l x
    simp only [filter_slice8]
    split_ifs with hp
    · have hnum : a8 p l x * (256 - 0) + b8 p l x * 0 + 128 = a8 p l x * 2^8 + 128 := by
        rw [h256]; ring
      rw [hnum, asr_exact _ _ _ (by norm_num) (by norm_num), toU8_id _ ha0 ha1]
    · have hnum : (a8 p l x - 128) * (256 - 0) + (b8 p l x - 128) * 0 + 32896
          = a8 p l x * 2^8 + 128 := by
        rw [h256]; ring
      rw [hnum, asr_exact _ _ _ (by norm_num) (by norm_num), toU8_id _ ha0 ha1]
  · intro p l x
    obtain ⟨hb0, hb1⟩ := h8b p l x
    simp only [filter_slice8]
    split_ifs with hp
    · have hnum : a8 p l x * (256 - 256) + b8 p l x * 256 + 128 = b8 p l x * 2^8 + 128 := by
        rw [h256]; ring
      rw [hnum, asr_exact _ _ _ (by norm_num) (by norm_num), toU8_id _ hb0 hb1]
    · have hnum : (a8 p l x - 128) * (256 - 256) + (b8 p l x - 128) * 256 + 32896
          = b8 p l x * 2^8 + 128 := by
        rw [h256]; ring
      rw [hnum, asr_exact _ _ _ (by norm_num) (by norm_num), toU8_id _ hb0 hb1]
  · intro p l x
    obtain ⟨ha0, ha1⟩ := h16a p l x
    simp only [filter_slice16]
    split_ifs with hp
    · have hnum : a16 p l x * ((2:Int)^bd - 0) + b16 p l x * 0 + 2^bd / 2
          = a16 p l x * 2^bd + 2^bd / 2 := by ring
      rw [hnum, asr_exact _ _ _ hh.1 hh.2,
          toU16_id _ ha0 (lt_65536_of_lt_pow _ bd hbd2 ha1)]
    · have hnum : (a16 p l x - (2:Int)^bd / 2) * ((2:Int)^bd - 0)
          + (b16 p l x - (2:Int)^bd / 2) * 0 + ((2:Int)^bd + 1) * ((2:Int)^bd / 2)
          = a16 p l x * 2^bd + 2^bd / 2 := by ring
      rw [hnum, asr_exact _ _ _ hh.1 hh.2,
          toU16_id _ ha0 (lt_65536_of_lt_pow _ bd hbd2 ha1)]
  · intro p l x
    obtain ⟨hb0, hb1⟩ := h16b p l x
    simp only [filter_slice16]
    split_ifs with hp
    · have hnum : a16 p l x * ((2:Int)^bd - 2^bd) + b16 p l x * 2^bd + 2^bd / 2
          = b16 p l x * 2^bd + 2^bd / 2 := by ring
      rw [hnum, asr_exact _ _ _ hh.1 hh.2,
          toU16_id _ hb0 (lt_65536_of_lt_pow _ bd hbd2 hb1)]
    · have hnum : (a16 p l x - (2:Int)^bd / 2) * ((2:Int)^bd - 2^bd)
          + (b16 p l x - (2:Int)^bd / 2) * 2^bd + ((2:Int)^bd + 1) * ((2:Int)^bd / 2)
          = b16 p l x * 2^bd + 2^bd / 2 := by ring
      rw [hnum, asr_exact _ _ _ hh.1 hh.2,
          toU16_id _ hb0 (lt_65536_of_lt_pow _ bd hbd2 hb1)]

/-- Witness for C3 at constant frames (value 7 at 8-bit, 600 at 10-bit). -/
theorem c3_blend_boundary_witness :
    (∀ p l x, filter_slice8 (fun _ _ _ => 7) (fun _ _ _ => 9) (256 - 0) 0 p l x = 7) ∧
    (∀ p l x, filter_slice8 (fun _ _ _ => 7) (fun _ _ _ => 9) (256 - 256) 256 p l x = 9) ∧
    (∀ p l x, filter_slice16 (2^10) 10 (fun _ _ _ => 600) (fun _ _ _ => 700)
        (2^10 - 0) 0 p l x = 600) ∧
    (∀ p l x, filter_slice16 (2^10) 10 (fun _ _ _ => 600) (fun _ _ _ => 700)
        (2^10 - 2^10) (2^10) p l x = 700) :=
  c3_blend_boundary (fun _ _ _ => 7) (fun _ _ _ => 9) (fun _ _ _ => 600) (fun _ _ _ => 700)
    10 (by norm_num) (by norm_num)
    (fun _ _ _ => by norm_num) (fun _ _ _ => by norm_num)
    (fun _ _ _ => by norm_num) (fun _ _ _ => by norm_num)

/-- C4: if the two sources agree on the chroma planes (planes 1 and 2), then
for every weight pair `(w, max_value - w)` both blend kernels leave chroma
samples unchanged — the fixed-point re-centering (constants 128 and 32896 at
8 bits; `half = max/2`, bias `(max+1)*half` in general) is exact. -/
theorem c4_chroma_neutrality (a8 b8 a16 b16 : Fin 4 → Nat → Nat → Int) (bd : Nat)
    (w8 w16 : Int) (hbd1 : 9 ≤ bd) (hbd2 : bd ≤ 12)
    (hch8 : ∀ p l x, p.val = 1 ∨ p.val = 2 → b8 p l x = a8 p l x)
    (hch16 : ∀ p l x, p.val = 1 ∨ p.val = 2 → b16 p l x = a16 p l x)
    (h8a : ∀ p l x, 0 ≤ a8 p l x ∧ a8 p l x ≤ 255)
    (h16a : ∀ p l x, 0 ≤ a16 p l x ∧ a16 p l x < 2^bd) :
    (∀ p l x, p.val = 1 ∨ p.val = 2 →
      filter_slice8 a8 b8 (256 - w8) w8 p l x = a8 p l x) ∧
    (∀ p l x, p.val = 1 ∨ p.val = 2 →
      filter_slice16 (2^bd) bd a16 b16 (2^bd - w16) w16 p l x = a16 p l x) := by
  have h256 : ((2:Int)^8) = 256 := by norm_num
  have hh := half_bounds bd (by omega)
  constructor
  · intro p l x hp
    obtain ⟨ha0, ha1⟩ := h8a p l x
    have hnotluma : ¬(p.val < 1 ∨ 2 < p.val) := by omega
    simp only [filter_slice8]
    rw [if_neg hnotluma, hch8 p l x hp]
    have hnum : (a8 p l x - 128) * (256 - w8) + (a8 p l x - 128) * w8 + 32896
        = a8 p l x * 2^8 + 128 := by
      rw [h256]; ring
    rw [hnum, asr_exact _ _ _ (by norm_num) (by norm_num), toU8_id _ ha0 ha1]
  · intro p l x hp
    obtain ⟨ha0, ha1⟩ := h16a p l x
    have hnotluma : ¬(p.val < 1 ∨ 2 < p.val) := by omega
    simp only [filter_slice16]
    rw [if_neg hnotluma, hch16 p l x hp]
    have hnum : (a16 p l x - (2:Int)^bd / 2) * ((2:Int)^bd - w16)
        + (a16 p l x - (2:Int)^bd / 2) * w16 + ((2:Int)^bd + 1) * ((2:Int)^bd / 2)
        = a16 p l x * 2^bd + 2^bd / 2 := by ring
    rw [hnum, asr_exact _ _ _ hh.1 hh.2,
        toU16_id _ ha0 (lt_65536_of_lt_pow _ bd hbd2 ha1)]

/-- Witness for C4 at constant frames and weights 100 (8-bit) / 500 (10-bit). -/
theorem c4_chroma_neutrality_witness :
    (∀ p l x, p.val = 1 ∨ p.val = 2 →
      filter_slice8 (fun _ _ _ => 77) (fun _ _ _ => 77) (256 - 100) 100 p l x = 77) ∧
    (∀ p l x, p.val = 1 ∨ p.val = 2 →
      filter_slice16 (2^10) 10 (fun _ _ _ => 333) (fun _ _ _ => 333)
        (2^10 - 500) 500 p l x = 333) :=
  c4_chroma_neutrality (fun _ _ _ => 77) (fun _ _ _ => 77) (fun _ _ _ => 333)
    (fun _ _ _ => 333) 10 100 500 (by norm_num) (by norm_num)
    (fun _ _ _ _ => rfl) (fun _ _ _ _ => rfl)
    (fun _ _ _ => by norm_num) (fun _ _ _ => by norm_num)

/-- The scene score `blend_frames` compares against the threshold: the cached
score when valid (`score >= 0`), a freshly computed one when scene-change
detection is enabled and the cache is invalid, and 0 when detection is
disabled. -/
def effective_score (cfg : Cfg) (s : FRState) (f0 f1 : Frame) : ℚ :=
  if cfg.scd then
    if s.score ≥ 0 then s.score else (get_scene_score cfg s f0 f1).1
  else 0

/-- `blend_frames` blends exactly when the effective score is strictly below
the configured threshold. -/
lemma blend_frames_decision (cfg : Cfg) (s : FRState) (f0 f1 : Frame) :
    (blend_frames cfg s f0 f1).2 = true ↔
      effective_score cfg s f0 f1 < cfg.scene_score := by
  unfold blend_frames effective_score
  split_ifs <;> (try simp_all) <;> (split_ifs <;> simp_all)

/-- C1 counterexample: with scene-change detection disabled and the scene
threshold configured to 0 (an admissible option value), a candidate whose
ratio lies inside `[interp_start, interp_end]` is NOT blended — the code
falls back to cloning (here `Clone(f0)`, ratio 128 not past the midpoint) —
whereas the claim mandates a blend whenever detection is disabled. -/
def cfgC1 : Cfg :=
  { dest_frame_rate := ⟨1, 1⟩, dest_time_base := ⟨1, 1⟩, srce_time_base := ⟨1, 1⟩,
    interp_start := 15, interp_end := 240, scene_score := 0, scd := false,
    bitdepth := 8, max := 256 }

/-- C1 counterexample state: full window `(pts0, pts1) = (0, 2)`, next
candidate at timestamp 1. -/
def sC1 : FRState :=
  { f0 := some (frameZ (some 0)), f1 := some (frameZ (some 2)), pts0 := 0, pts1 := 2,
    delta := 2, score := -1, prev_mafd := 0, flush := false, start_pts := 0, n := 1 }

/-- C1 counterexample: scene detection disabled, ratio 128 inside the
interpolation band, yet the emitted frame is a clone, not a blend. -/
theorem c1_cx :
    (process_work_frame cfgC1 sC1).2 = some ⟨WorkSrc.clone0, 1⟩ ∧
    cfgC1.scd = false ∧
    cfgC1.interp_start ≤ av_rescale (workPts cfgC1 sC1 - sC1.pts0) cfgC1.max sC1.delta ∧
    av_rescale (workPts cfgC1 sC1 - sC1.pts0) cfgC1.max sC1.delta ≤ cfgC1.interp_end := by
  refine ⟨?_, rfl, by decide, by decide⟩
  decide

/-- C1 (amended): for a candidate processed with both window frames set (and
within the scheduling guards), with
`ratio = round(max * (work_pts - pts0) / delta)`: if `ratio > interp_end`
the output clones `f1`; if `ratio < interp_start` it clones `f0`; otherwise,
letting the effective scene score be the cached/computed score when
detection is enabled and 0 when disabled, the output is the blend
`(weight1 = max - ratio, weight2 = ratio)` exactly when the effective score
is strictly below the threshold, and otherwise a clone of `f1` when the
ratio is past the midpoint `max/2`, else of `f0`.  (The original claim said
a disabled detector always blends; with threshold 0 the `0 < 0` comparison
fails and the code clones instead — see the counterexample.) -/
theorem c1_interpolation_policy (cfg : Cfg) (s : FRState) (f0v f1v : Frame)
    (hf1 : s.f1 = some f1v) (hf0 : s.f0 = some f0v)
    (hg1 : ¬(workPts cfg s ≥ s.pts1 ∧ s.flush = false))
    (hg2 : ¬(workPts cfg s ≥ s.pts1 + s.delta ∧ s.flush = true)) :
    (av_rescale (workPts cfg s - s.pts0) cfg.max s.delta > cfg.interp_end →
      (process_work_frame cfg s).2 = some ⟨WorkSrc.clone1, workPts cfg s⟩) ∧
    (av_rescale (workPts cfg s - s.pts0) cfg.max s.delta ≤ cfg.interp_end →
     av_rescale (workPts cfg s - s.pts0) cfg.max s.delta < cfg.interp_start →
      (process_work_frame cfg s).2 = some ⟨WorkSrc.clone0, workPts cfg s⟩) ∧
    (cfg.interp_start ≤ av_rescale (workPts cfg s - s.pts0) cfg.max s.delta →
     av_rescale (workPts cfg s - s.pts0) cfg.max s.delta ≤ cfg.interp_end →
      (effective_score cfg s f0v f1v < cfg.scene_score →
        (process_work_frame cfg s).2 =
          some ⟨WorkSrc.blended (cfg.max - av_rescale (workPts cfg s - s.pts0) cfg.max s.delta)
                                (av_rescale (workPts cfg s - s.pts0) cfg.max s.delta),
                workPts cfg s⟩) ∧
      (cfg.scene_score ≤ effective_score cfg s f0v f1v →
        (process_work_frame cfg s).2 =
          some ⟨(if av_rescale (workPts cfg s - s.pts0) cfg.max s.delta > cfg.max / 2
                 then WorkSrc.clone1 else WorkSrc.clone0),
                workPts cfg s⟩)) := by
  unfold process_work_frame
  rw [hf1, hf0]
  simp only [if_neg hg1, if_neg hg2]
  set itp := av_rescale (workPts cfg s - s.pts0) cfg.max s.delta with hitp
  refine ⟨?_, ?_, ?_⟩
  · intro h
    rw [if_pos h]
  · intro hle h
    rw [if_neg (not_lt.mpr hle), if_pos h]
  · intro h1 h2
    rw [if_neg (not_lt.mpr h2), if_neg (not_lt.mpr h1)]
    constructor
    · intro hsc
      have hb : (blend_frames cfg s f0v f1v).2 = true :=
        (blend_frames_decision cfg s f0v f1v).mpr hsc
      rw [if_pos hb]
    · intro hsc
      have hb : ¬((blend_frames cfg s f0v f1v).2 = true) := by
        rw [blend_frames_decision cfg s f0v f1v]
        exact not_lt.mpr hsc
      rw [if_neg hb]

/-- C1 witness state: cached score 0 (valid), window `(0, 2)`, candidate 1. -/
def sW1 : FRState := { sC1 with score := 0 }

/-- Witness for C1 (amended): at the concrete state the ratio is 128, the
cached score 0 is below the threshold 8, and the output is the blend with
weights (128, 128). -/
theorem c1_interpolation_policy_witness :
    (process_work_frame cfgT sW1).2 = some ⟨WorkSrc.blended 128 128, 1⟩ :=
  ((c1_interpolation_policy cfgT sW1 (frameZ (some 0)) (frameZ (some 2)) rfl rfl
      (by decide) (by decide)).2.2 (by decide) (by decide)).1 (by decide)

/-- During flush with a full window, a candidate within the bound
`pts1 + delta` is always emitted (whatever the decision path), carrying the
candidate timestamp. -/
lemma process_flush_emits (cfg : Cfg) (s : FRState) (f0v f1v : Frame)
    (h0 : s.f0 = some f0v) (h1 : s.f1 = some f1v) (hfl : s.flush = true)
    (hin : workPts cfg s < s.pts1 + s.delta) :
    ∃ o, (process_work_frame cfg s).2 = some o ∧ o.pts = workPts cfg s := by
  have hA : ¬(workPts cfg s ≥ s.pts1 ∧ s.flush = false) := by
    rw [hfl]; simp
  have hB : ¬(workPts cfg s ≥ s.pts1 + s.delta ∧ s.flush = true) :=
    fun h => (not_le.mpr hin) h.1
  simp only [process_work_frame, h1, h0]
  rw [if_neg hA, if_neg hB]
  split_ifs <;> exact ⟨_, rfl, rfl⟩

/-- During flush with a full window, a candidate at or beyond the bound
`pts1 + delta` is rejected and the state is unchanged. -/
lemma process_flush_bound (cfg : Cfg) (s : FRState) (f0v f1v : Frame)
    (h0 : s.f0 = some f0v) (h1 : s.f1 = some f1v) (hfl : s.flush = true)
    (hout : s.pts1 + s.delta ≤ workPts cfg s) :
    process_work_frame cfg s = (s, none) := by
  have hA : ¬(workPts cfg s ≥ s.pts1 ∧ s.flush = false) := by
    rw [hfl]; simp
  simp only [process_work_frame, h1, h0]
  rw [if_neg hA, if_pos (show workPts cfg s ≥ s.pts1 + s.delta ∧ s.flush = true from ⟨hout, hfl⟩)]

/-- C7 counterexample: after a timestamp-discontinuity reset (`f0` cleared,
`delta = -5`), end-of-stream flush emits the candidate at timestamp 5 even
though it exceeds the bound `pts1 + delta = 0` — the bound is only checked
when `f0` is set, contradicting "emitted only if within `pts1 + delta`". -/
def sC7 : FRState :=
  { f0 := none, f1 := some (frameZ (some 5)), pts0 := 10, pts1 := 5, delta := -5,
    score := -1, prev_mafd := 0, flush := false, start_pts := 5, n := 0 }

/-- C7 counterexample: the flush candidate (timestamp 5) is at or past
`pts1 + delta = 0`, yet it is emitted rather than EOF being signaled. -/
theorem c7_cx :
    (request_frame_eof cfgT sC7).2.1 = some ⟨WorkSrc.clone1, 5⟩ ∧
    sC7.pts1 + sC7.delta ≤ 5 := by
  constructor
  · decide
  · decide

/-- C7 (amended): on upstream EOF with a current frame and not yet flushing,
exactly one more candidate is processed.  When the window still holds both
frames, the candidate is emitted (with its candidate timestamp) exactly when
it is below the bound `pts1 + delta`, and otherwise EOF is signaled to the
output side; when `f0` is unset (single frame, or cleared by a reset) the
candidate is emitted unconditionally as a clone of `f1`.  Once flushing,
every further EOF request signals EOF without emitting. -/
theorem c7_flush_policy (cfg : Cfg) (s : FRState) (f1v : Frame)
    (hf1 : s.f1 = some f1v) (hfl : s.flush = false) :
    (∀ f0v, s.f0 = some f0v →
      (workPts cfg s < s.pts1 + s.delta →
        ∃ o, (request_frame_eof cfg s).2.1 = some o ∧ o.pts = workPts cfg s ∧
          (request_frame_eof cfg s).2.2 = false) ∧
      (s.pts1 + s.delta ≤ workPts cfg s →
        (request_frame_eof cfg s).2.1 = none ∧ (request_frame_eof cfg s).2.2 = true)) ∧
    (s.f0 = none →
      (request_frame_eof cfg s).2.1 = some ⟨WorkSrc.clone1, workPts cfg s⟩ ∧
      (request_frame_eof cfg s).2.2 = false) ∧
    (∀ s2 : FRState, s2.flush = true → request_frame_eof cfg s2 = (s2, none, true)) := by
  have hcond : (s.f1.isSome ∧ s.flush = false) := by rw [hf1]; exact ⟨rfl, hfl⟩
  refine ⟨?_, ?_, ?_⟩
  · intro f0v hf0
    constructor
    · intro hin
      obtain ⟨o, ho, hop⟩ :=
        process_flush_emits cfg { s with flush := true } f0v f1v hf0 hf1 rfl hin
      rcases hpr : process_work_frame cfg { s with flush := true } with ⟨s2, oo⟩
      rw [hpr] at ho
      simp only at ho
      simp only [request_frame_eof, if_pos hcond]
      rw [hpr, ho]
      exact ⟨o, rfl, hop, rfl⟩
    · intro hout
      have hb := process_flush_bound cfg { s with flush := true } f0v f1v hf0 hf1 rfl hout
      simp only [request_frame_eof, if_pos hcond]
      rw [hb]
      exact ⟨rfl, rfl⟩
  · intro hf0
    have hpr : process_work_frame cfg { s with flush := true }
        = ({ s with flush := true, n := s.n + 1 }, some ⟨WorkSrc.clone1, workPts cfg s⟩) := by
      simp [process_work_frame, hf1, hf0, workPts]
    simp only [request_frame_eof, if_pos hcond]
    rw [hpr]
    exact ⟨rfl, rfl⟩
  · intro s2 hfl2
    have hno : ¬((s2.f1.isSome : Prop) ∧ s2.flush = false) := by simp [hfl2]
    simp only [request_frame_eof, if_neg hno]

/-- Witness for C7 (amended) at a full window `(0, 10)`, `n = 3`: the flush
candidate at timestamp 3 is below the bound 20 and is emitted. -/
theorem c7_flush_policy_witness :
    ∃ o, (request_frame_eof cfgT sT6).2.1 = some o ∧ o.pts = workPts cfgT sT6 ∧
      (request_frame_eof cfgT sT6).2.2 = false :=
  (((c7_flush_policy cfgT sT6 (frameZ (some 10)) rfl rfl).1 (frameZ (some 0)) rfl).1
    (by decide))

/-- `blend_frames` only touches the scene-score cache and `prev_mafd`:
every scheduling-relevant field of the state survives unchanged. -/
lemma blend_frames_preserves (cfg : Cfg) (s : FRState) (f0 f1 : Frame) :
    (blend_frames cfg s f0 f1).1.n = s.n ∧
    (blend_frames cfg s f0 f1).1.start_pts = s.start_pts := by
  constructor <;> (simp only [blend_frames, get_scene_score]; split_ifs <;> rfl)

/-- Whenever `process_work_frame` emits a frame, the frame carries the
candidate timestamp, the output counter advances by one, and `start_pts`
is untouched. -/
lemma process_emit_shape (cfg : Cfg) (s s' : FRState) (o : OutFrame)
    (h : process_work_frame cfg s = (s', some o)) :
    o.pts = workPts cfg s ∧ s'.n = s.n + 1 ∧ s'.start_pts = s.start_pts := by
  cases hf1 : s.f1 with
  | none => simp [process_work_frame, hf1, Prod.ext_iff] at h
  | some f1v =>
    cases hf0 : s.f0 with
    | none =>
      by_cases hfl : s.flush = false
      · simp [process_work_frame, hf1, hf0, hfl, Prod.ext_iff] at h
      · simp only [process_work_frame, hf1, hf0, if_neg hfl] at h
        split_ifs at h with hg
        · simp [Prod.ext_iff] at h
        · rw [Prod.mk.injEq, Option.some.injEq] at h
          obtain ⟨hs', ho⟩ := h
          subst hs'; subst ho
          exact ⟨rfl, rfl, rfl⟩
    | some f0v =>
      simp only [process_work_frame, hf1, hf0] at h
      split_ifs at h <;>
      first
        | (simp [Prod.ext_iff] at h
           done)
        | (rw [Prod.mk.injEq, Option.some.injEq] at h
           obtain ⟨hs', ho⟩ := h
           subst hs'
           subst ho
           first
             | exact ⟨rfl, rfl, rfl⟩
             | (obtain ⟨hn, hsp⟩ := blend_frames_preserves cfg s f0v f1v
                exact ⟨rfl, by simp [hn], by simp [hsp]⟩))

/-- When `process_work_frame` emits nothing it also leaves the state
untouched. -/
lemma process_none_shape (cfg : Cfg) (s s' : FRState)
    (h : process_work_frame cfg s = (s', none)) : s' = s := by
  cases hf1 : s.f1 with
  | none =>
    simp only [process_work_frame, hf1] at h
    rw [Prod.mk.injEq] at h
    exact h.1.symm
  | some f1v =>
    cases hf0 : s.f0 with
    | none =>
      simp only [process_work_frame, hf1, hf0] at h
      split_ifs at h <;>
        (rw [Prod.mk.injEq] at h; first | exact h.1.symm | exact absurd h.2 (by simp))
    | some f0v =>
      simp only [process_work_frame, hf1, hf0] at h
      split_ifs at h <;>
        (rw [Prod.mk.injEq] at h; first | exact h.1.symm | exact absurd h.2 (by simp))

/-- The emission loop: every emitted frame's timestamp is
`start_pts + av_rescale_q(n₀ + i, 1/dest_rate, dest_tb)` where `i` is its
position in the batch and `n₀` the counter on entry; the counter advances
by the number of frames emitted; `start_pts` is untouched. -/
lemma emitLoop_shape (cfg : Cfg) (fuel : Nat) (s : FRState) :
    ((emitLoop cfg fuel s).2.map OutFrame.pts
      = (List.range (emitLoop cfg fuel s).2.length).map
          (fun (i : Nat) => s.start_pts
            + av_rescale_q (s.n + (i : Int)) (av_inv_q cfg.dest_frame_rate) cfg.dest_time_base))
    ∧ (emitLoop cfg fuel s).1.n = s.n + (emitLoop cfg fuel s).2.length
    ∧ (emitLoop cfg fuel s).1.start_pts = s.start_pts := by
  induction fuel generalizing s with
  | zero => simp [emitLoop]
  | succ fuel ih =>
    rcases hp : process_work_frame cfg s with ⟨s1, oo⟩
    cases oo with
    | none =>
      have hs1 : s1 = s := process_none_shape cfg s s1 hp
      subst hs1
      simp [emitLoop, hp]
    | some o =>
      obtain ⟨hopts, hn1, hsp1⟩ := process_emit_shape cfg s s1 o hp
      obtain ⟨ih1, ih2, ih3⟩ := ih s1
      simp only [emitLoop, hp]
      refine ⟨?_, ?_, ?_⟩
      · rw [List.map_cons, ih1, hsp1, hn1, List.length_cons, List.range_succ_eq_map,
            List.map_cons, List.map_map]
        congr 1
        · rw [hopts]
          unfold workPts
          norm_num
        · apply List.map_congr_left
          intro a _
          simp only [Function.comp_apply]
          have harg : s.n + 1 + (a : Int) = s.n + ((Nat.succ a : Nat) : Int) := by
            push_cast; ring
          rw [harg]
      · rw [ih2, hn1, List.length_cons]
        push_cast; ring
      · rw [ih3, hsp1]

/-- A dropped input (no timestamp, or duplicate timestamp) leaves
`filter_frame` a no-op. -/
lemma filter_frame_dropped (cfg : Cfg) (fuel : Nat) (s : FRState) (inp : Frame)
    (h : acceptPts cfg s inp = none) :
    filter_frame cfg fuel s inp = (s, []) := by
  cases hpts : inp.pts with
  | none => simp [filter_frame, hpts]
  | some ipts =>
    simp only [acceptPts, hpts] at h
    by_cases hd : (s.f1.isSome : Prop) ∧
        av_rescale_q ipts cfg.srce_time_base cfg.dest_time_base = s.pts1
    · simp [filter_frame, hpts, if_pos hd]
    · rw [if_neg hd] at h
      simp at h

/-- An accepted, monotone input shifts the window and runs the emission
loop on the shifted state (no discontinuity reset, `start_pts` already
established). -/
lemma filter_frame_accepted (cfg : Cfg) (fuel : Nat) (s : FRState) (inp : Frame) (p : Int)
    (h : acceptPts cfg s inp = some p) (hmono : s.pts1 ≤ p)
    (hsp : s.start_pts ≠ AV_NOPTS_VALUE) :
    filter_frame cfg fuel s inp
      = emitLoop cfg fuel
          { s with f0 := s.f1, pts0 := s.pts1, f1 := some inp, pts1 := p,
                   delta := p - s.pts1, score := -1 } := by
  cases hpts : inp.pts with
  | none => simp [acceptPts, hpts] at h
  | some ipts =>
    simp only [acceptPts, hpts] at h
    split_ifs at h with hd
    rw [Option.some.injEq] at h
    simp only [filter_frame, hpts]
    rw [if_neg hd, h]
    have hnd : ¬(p - s.pts1 < 0) := by omega
    rw [if_neg hnd, if_neg hsp]

/-- A run of `filter_frame` calls with no discontinuity reset: output
timestamps are `start_pts + av_rescale_q(n₀ + i, 1/dest_rate, dest_tb)` for
consecutive `i`, the counter totals the outputs, and `start_pts` never
moves. -/
lemma runFilter_shape (cfg : Cfg) (fuel : Nat) :
    ∀ (inputs : List Frame) (s : FRState),
      s.start_pts ≠ AV_NOPTS_VALUE →
      noResetRun cfg fuel s inputs = true →
      ((runFilter cfg fuel s inputs).2.map OutFrame.pts
        = (List.range (runFilter cfg fuel s inputs).2.length).map
            (fun (i : Nat) => s.start_pts
              + av_rescale_q (s.n + (i : Int)) (av_inv_q cfg.dest_frame_rate) cfg.dest_time_base))
      ∧ (runFilter cfg fuel s inputs).1.n = s.n + (runFilter cfg fuel s inputs).2.length
      ∧ (runFilter cfg fuel s inputs).1.start_pts = s.start_pts := by
  intro inputs
  induction inputs with
  | nil =>
    intro s hsp hnr
    simp [runFilter]
  | cons inp rest ih =>
    intro s hsp hnr
    unfold noResetRun at hnr
    rw [Bool.and_eq_true] at hnr
    obtain ⟨hc1, hc2⟩ := hnr
    cases hacc : acceptPts cfg s inp with
    | none =>
      have hff := filter_frame_dropped cfg fuel s inp hacc
      have ihs := ih s hsp (by rwa [hff] at hc2)
      simp only [runFilter, hff]
      simpa using ihs
    | some p =>
      rw [hacc] at hc1
      have hle : s.pts1 ≤ p := of_decide_eq_true hc1
      have hff := filter_frame_accepted cfg fuel s inp p hacc hle hsp
      have hE := emitLoop_shape cfg fuel
        { s with f0 := s.f1, pts0 := s.pts1, f1 := some inp, pts1 := p,
                 delta := p - s.pts1, score := -1 }
      obtain ⟨e1, e2, e3⟩ := hE
      have hstartA : (emitLoop cfg fuel
          { s with f0 := s.f1, pts0 := s.pts1, f1 := some inp, pts1 := p,
                   delta := p - s.pts1, score := -1 }).1.start_pts = s.start_pts := e3
      have hnA : (emitLoop cfg fuel
          { s with f0 := s.f1, pts0 := s.pts1, f1 := some inp, pts1 := p,
                   delta := p - s.pts1, score := -1 }).1.n
          = s.n + ((emitLoop cfg fuel
              { s with f0 := s.f1, pts0 := s.pts1, f1 := some inp, pts1 := p,
                       delta := p - s.pts1, score := -1 }).2.length : Int) := e2
      have ihA := ih (emitLoop cfg fuel
          { s with f0 := s.f1, pts0 := s.pts1, f1 := some inp, pts1 := p,
                   delta := p - s.pts1, score := -1 }).1
        (by rw [hstartA]; exact hsp) (by rwa [hff] at hc2)
      obtain ⟨a1, a2, a3⟩ := ihA
      simp only [runFilter, hff]
      refine ⟨?_, ?_, ?_⟩
      · rw [List.map_append, e1, a1, hstartA, hnA, List.length_append, List.range_add,
            List.map_append, List.map_map]
        congr 1
        apply List.map_congr_left
        intro a _
        simp only [Function.comp_apply]
        push_cast
        ring_nf
      · rw [a2, hnA, List.length_append]
        push_cast
        omega
      · rw [a3, hstartA]

/-- One frame interval, expressed in the destination timebase as the exact
fraction `interval_num / interval_den`: `av_rescale_q(n, 1/dest_rate,
dest_tb)` is `av_rescale(n, interval_num, interval_den)`. -/
def interval_num (cfg : Cfg) : Int := cfg.dest_frame_rate.den * cfg.dest_time_base.den

/-- Denominator of the frame interval in destination-timebase ticks. -/
def interval_den (cfg : Cfg) : Int := cfg.dest_frame_rate.num * cfg.dest_time_base.num

lemma av_rescale_q_interval (cfg : Cfg) (a : Int) :
    av_rescale_q a (av_inv_q cfg.dest_frame_rate) cfg.dest_time_base
      = av_rescale a (interval_num cfg) (interval_den cfg) := rfl

/-- One output step advances the rounded timestamp strictly, provided a
frame interval is at least one tick (`c ≤ b`). -/
lemma av_rescale_succ_lt (b c n : Int) (hc : 0 < c) (hcb : c ≤ b) :
    av_rescale n b c < av_rescale (n + 1) b c := by
  unfold av_rescale
  have h2c : (0:Int) < 2*c := by omega
  have e : (2*n*b + c)/(2*c) + 1 = ((2*n*b + c) + (2*c)*1)/(2*c) :=
    (Int.add_mul_ediv_left (2*n*b + c) 1 (by omega : (2:Int)*c ≠ 0)).symm
  refine lt_of_lt_of_le (lt_add_one _) ?_
  rw [e]
  exact Int.ediv_le_ediv h2c (by nlinarith)

/-- Candidate timestamps are strictly monotone in the output counter when
a frame interval is at least one tick. -/
lemma av_rescale_strict_mono (b c : Int) (hc : 0 < c) (hcb : c ≤ b) :
    StrictMono (fun n : Int => av_rescale n b c) :=
  strictMono_int_of_lt_succ (fun n => av_rescale_succ_lt b c n hc hcb)

/-- Consecutive rounded timestamps differ from the exact rational spacing
`b / c` by less than one: `|c·gap - b| < c`. -/
lemma av_rescale_spacing (b c n : Int) (hc : 0 < c) :
    b - c < c * (av_rescale (n+1) b c - av_rescale n b c) ∧
    c * (av_rescale (n+1) b c - av_rescale n b c) < b + c := by
  unfold av_rescale
  have h2c : (0:Int) < 2*c := by omega
  have hne : (2:Int)*c ≠ 0 := by omega
  set x := 2*n*b + c with hx
  set x' := 2*(n+1)*b + c with hx'
  set q := x / (2*c) with hq
  set q' := x' / (2*c) with hq'
  have hr1 := Int.ediv_add_emod x (2*c)
  have hr2 := Int.ediv_add_emod x' (2*c)
  have hm1a := Int.emod_nonneg x hne
  have hm1b := Int.emod_lt_of_pos x h2c
  have hm2a := Int.emod_nonneg x' hne
  have hm2b := Int.emod_lt_of_pos x' h2c
  have hxx : x' - x = 2*b := by rw [hx, hx']; ring
  have hkey : 2*(c * (q' - q)) = 2*b + (x % (2*c)) - (x' % (2*c)) := by
    have : 2*c*q' + x' % (2*c) = x' := by rw [hq']; exact hr2
    have h1 : 2*c*q + x % (2*c) = x := by rw [hq]; exact hr1
    nlinarith [this, h1, hxx]
  constructor
  · nlinarith [hkey, hm1a, hm2b]
  · nlinarith [hkey, hm1b, hm2a]

/-- C2: over a run of accepted inputs with no timestamp-discontinuity reset
(starting from a post-reset/post-start state: `start_pts` established,
counter `n = 0`), every emitted output's timestamp is
`start_pts + av_rescale_q(n, 1/dest_frame_rate, dest_time_base)` with `n`
the number of outputs emitted so far; and provided the destination timebase
makes one frame interval at least one tick (`interval_den ≤ interval_num`,
which the `config_output` GCD derivation guarantees — see
`derived_time_base_tick`), the emitted timestamps are strictly increasing
and evenly spaced up to rational rounding: every adjacent gap `d` satisfies
`|interval_den·d - interval_num| < interval_den`. -/
theorem c2_output_timestamps (cfg : Cfg) (fuel : Nat) (s0 : FRState) (inputs : List Frame)
    (hsp : s0.start_pts ≠ AV_NOPTS_VALUE) (hn0 : s0.n = 0)
    (hnr : noResetRun cfg fuel s0 inputs = true)
    (hc : 0 < interval_den cfg) (hcb : interval_den cfg ≤ interval_num cfg) :
    ((runFilter cfg fuel s0 inputs).2.map OutFrame.pts
      = (List.range (runFilter cfg fuel s0 inputs).2.length).map
          (fun (i : Nat) => s0.start_pts
            + av_rescale_q (i : Int) (av_inv_q cfg.dest_frame_rate) cfg.dest_time_base))
    ∧ List.Pairwise (· < ·) ((runFilter cfg fuel s0 inputs).2.map OutFrame.pts)
    ∧ List.Chain' (fun a b =>
        interval_num cfg - interval_den cfg < interval_den cfg * (b - a) ∧
        interval_den cfg * (b - a) < interval_num cfg + interval_den cfg)
        ((runFilter cfg fuel s0 inputs).2.map OutFrame.pts) := by
  obtain ⟨m1, _, _⟩ := runFilter_shape cfg fuel inputs s0 hsp hnr
  have m1' : (runFilter cfg fuel s0 inputs).2.map OutFrame.pts
      = (List.range (runFilter cfg fuel s0 inputs).2.length).map
          (fun (i : Nat) => s0.start_pts
            + av_rescale_q (i : Int) (av_inv_q cfg.dest_frame_rate) cfg.dest_time_base) := by
    rw [m1]
    apply List.map_congr_left
    intro a _
    rw [hn0, zero_add]
  refine ⟨m1', ?_, ?_⟩
  · rw [m1', List.pairwise_map]
    refine List.Pairwise.imp (fun {i j} hij => ?_) (List.pairwise_lt_range _)
    exact add_lt_add_left
      (av_rescale_strict_mono (interval_num cfg) (interval_den cfg) hc hcb
        (show (i:Int) < (j:Int) by exact_mod_cast hij)) _
  · rw [m1', List.chain'_map]
    cases hlen : (runFilter cfg fuel s0 inputs).2.length with
    | zero => simp
    | succ m =>
      rw [List.chain'_range_succ]
      intro i _
      have hs := av_rescale_spacing (interval_num cfg) (interval_den cfg) (i : Int) hc
      have e1 : (s0.start_pts + av_rescale_q (((i+1 : Nat)) : Int)
            (av_inv_q cfg.dest_frame_rate) cfg.dest_time_base)
          - (s0.start_pts + av_rescale_q ((i : Nat) : Int)
            (av_inv_q cfg.dest_frame_rate) cfg.dest_time_base)
          = av_rescale ((i:Int)+1) (interval_num cfg) (interval_den cfg)
            - av_rescale (i:Int) (interval_num cfg) (interval_den cfg) := by
        rw [av_rescale_q_interval, av_rescale_q_interval]
        push_cast
        ring
      have e2 : interval_den cfg * ((s0.start_pts + av_rescale_q (((i+1 : Nat)) : Int)
            (av_inv_q cfg.dest_frame_rate) cfg.dest_time_base)
          - (s0.start_pts + av_rescale_q ((i : Nat) : Int)
            (av_inv_q cfg.dest_frame_rate) cfg.dest_time_base))
          = interval_den cfg * (av_rescale ((i:Int)+1) (interval_num cfg) (interval_den cfg)
            - av_rescale (i:Int) (interval_num cfg) (interval_den cfg)) := by
        rw [e1]
      constructor
      · linarith [hs.1, e2]
      · linarith [hs.2, e2]

/-- Test configuration for C2: 25 fps source (timebase 1/25) to 50 fps
(derived timebase 1/50), scene detection off. -/
def cfgW2 : Cfg :=
  { dest_frame_rate := ⟨50, 1⟩, dest_time_base := ⟨1, 50⟩, srce_time_base := ⟨1, 25⟩,
    interp_start := 15, interp_end := 240, scene_score := 1, scd := false,
    bitdepth := 8, max := 256 }

/-- Test state for C2: primed with a first frame at timestamp 0. -/
def sW2 : FRState :=
  { f0 := none, f1 := some (frameZ (some 0)), pts0 := 0, pts1 := 0, delta := 0,
    score := -1, prev_mafd := 0, flush := false, start_pts := 0, n := 0 }

/-- Witness for C2: feeding source frames 1 and 2 (at 25 fps) emits strictly
increasing timestamps. -/
theorem c2_output_timestamps_witness :
    List.Pairwise (· < ·)
      ((runFilter cfgW2 5 sW2 [frameZ (some 1), frameZ (some 2)]).2.map OutFrame.pts) :=
  (c2_output_timestamps cfgW2 5 sW2 [frameZ (some 1), frameZ (some 2)]
    (by decide) rfl (by decide) (by decide) (by decide)).2.1

/-- Modelled from the spec: `config_output` derives the destination timebase
as `gcd(srce_tb.num*rate.num, srce_tb.den*rate.den) / (srce_tb.den*rate.num)`
reduced to lowest terms by `av_reduce` (libavutil, not under `src/`; the
spec calls it "the coarsest exact rational timebase … via GCD reduction",
and we model the exact case). -/
def derived_dest_time_base (srce rate : AVRational) : AVRational :=
  ⟨(Int.gcd (srce.num * rate.num) (srce.den * rate.den) : Int)
      / (Int.gcd ((Int.gcd (srce.num * rate.num) (srce.den * rate.den) : Int))
          (srce.den * rate.num) : Int),
   (srce.den * rate.num)
      / (Int.gcd ((Int.gcd (srce.num * rate.num) (srce.den * rate.den) : Int))
          (srce.den * rate.num) : Int)⟩

/-- With the timebase derived by `config_output` (exact case), one output
frame interval is at least one destination tick — the hypothesis of
`c2_output_timestamps` holds by construction. -/
lemma derived_time_base_tick (srce rate : AVRational)
    (hsn : 0 < srce.num) (hsd : 0 < srce.den) (hrn : 0 < rate.num) (hrd : 0 < rate.den) :
    0 < rate.num * (derived_dest_time_base srce rate).num ∧
    rate.num * (derived_dest_time_base srce rate).num
      ≤ rate.den * (derived_dest_time_base srce rate).den := by
  simp only [derived_dest_time_base]
  set A := srce.num * rate.num with hAdef
  set B := srce.den * rate.den with hBdef
  set D := srce.den * rate.num with hDdef
  have hA : 0 < A := by rw [hAdef]; exact mul_pos hsn hrn
  have hB : 0 < B := by rw [hBdef]; exact mul_pos hsd hrd
  set g : Int := (Int.gcd A B : Int) with hgdef
  set k : Int := (Int.gcd g D : Int) with hkdef
  have hgpos : 0 < g := by
    rw [hgdef]
    have hne : Int.gcd A B ≠ 0 := by
      intro hz
      rw [Int.gcd_eq_zero_iff] at hz
      omega
    exact_mod_cast Nat.pos_of_ne_zero hne
  have hkpos : 0 < k := by
    rw [hkdef]
    have hne : Int.gcd g D ≠ 0 := by
      intro hz
      rw [Int.gcd_eq_zero_iff] at hz
      omega
    exact_mod_cast Nat.pos_of_ne_zero hne
  have hknz : k ≠ 0 := by omega
  have hkg : k ∣ g := by rw [hkdef]; exact Int.gcd_dvd_left
  have hkD : k ∣ D := by rw [hkdef]; exact Int.gcd_dvd_right
  have hgB : g ∣ B := by rw [hgdef]; exact Int.gcd_dvd_right
  obtain ⟨u, hu⟩ := hkg
  obtain ⟨v, hv⟩ := hkD
  obtain ⟨m, hm⟩ := hgB
  have egk : g / k = u := by rw [hu]; exact Int.mul_ediv_cancel_left u hknz
  have eDk : D / k = v := by rw [hv]; exact Int.mul_ediv_cancel_left v hknz
  rw [egk, eDk]
  have hu_pos : 0 < u := by nlinarith [hu]
  have hv_pos : 0 < v := by
    have hD : 0 < D := by rw [hDdef]; exact mul_pos hsd hrn
    nlinarith [hv]
  have hm_pos : 0 < m := by nlinarith [hm]
  constructor
  · exact mul_pos hrn hu_pos
  · have hkey : k * (rate.num * u * m) = k * (rate.den * v) := by
      calc k * (rate.num * u * m) = rate.num * (k * u) * m := by ring
        _ = rate.num * g * m := by rw [← hu]
        _ = rate.num * (g * m) := by ring
        _ = rate.num * B := by rw [← hm]
        _ = rate.den * D := by rw [hBdef, hDdef]; ring
        _ = rate.den * (k * v) := by rw [← hv]
        _ = k * (rate.den * v) := by ring
    have hkey2 : rate.num * u * m = rate.den * v := mul_left_cancel₀ hknz hkey
    nlinarith [hkey2, hm_pos, mul_pos hrn hu_pos]

end Framerate
